import Mathlib

/-!
# Verification of the csv-to-allure migration pipeline

Shallow embedding of `src/testcase-migration/src` (the modular package):
* `TestCaseTransformer.parse_steps` / `TestCaseTransformer.transform`
  (`src/core/transformer.py`),
* `CsvReader.read` (`src/core/reader.py`),
* `AllureClient.migrate_test_case` (`src/core/client.py`),
* the batching and exit-code logic of `process_migration` / `main`
  (`src/main.py`).

Python strings are modelled as `List Char`; Python dicts (CSV rows and API
payloads) as association lists with insert-or-update-in-place semantics.
-/

/-- A Python string, modelled as a list of characters. -/
abbrev Str := List Char

/-- Whitespace as recognised by Python's `str.strip()` (ASCII portion). -/
def pyIsSpace (c : Char) : Bool :=
  c = ' ' ∨ c = '\t' ∨ c = '\n' ∨ c = '\r' ∨ c = '\x0b' ∨ c = '\x0c'

/-- Python `str.lstrip()`. -/
def lstrip (s : Str) : Str := s.dropWhile pyIsSpace

/-- Python `str.rstrip()`. -/
def rstrip (s : Str) : Str := (s.reverse.dropWhile pyIsSpace).reverse

/-- Python `str.strip()`. -/
def strip (s : Str) : Str := rstrip (lstrip s)

/-- Python `str.upper()` (ASCII portion, as used on priority values). -/
def upper (s : Str) : Str := s.map Char.toUpper

/-- Python `sep in s` / the search for the first occurrence used by
`s.split(sep, 1)`: returns the pieces before and after the first occurrence
of `sep`, or `none` when `sep` does not occur in `s`. -/
def splitFirst (sep : Str) : Str → Option (Str × Str)
  | [] => none
  | c :: rest =>
    if List.isPrefixOf sep (c :: rest) then some ([], (c :: rest).drop sep.length)
    else
      match splitFirst sep rest with
      | some (a, b) => some (c :: a, b)
      | none => none

/-- Python `sep in s` as a Boolean. -/
def containsSub (sep s : Str) : Bool := (splitFirst sep s).isSome

namespace SrcConfig

/-- `config.STEP_SEPARATOR = " | "`. -/
def STEP_SEPARATOR : Str := [' ', '|', ' ']

/-- `config.ACTION_EXPECTED_SEPARATOR = "; Expected: "`. -/
def ACTION_EXPECTED_SEPARATOR : Str :=
  [';', ' ', 'E', 'x', 'p', 'e', 'c', 't', 'e', 'd', ':', ' ']

end SrcConfig

/-- `re.split(re.escape(STEP_SEPARATOR) + "|\n", s)`: split on every
leftmost non-overlapping occurrence of `" | "` (checked first, as the
escaped separator is the regex's first alternative) or of a newline. -/
def splitSteps : Str → List Str
  | [] => [[]]
  | ' ' :: '|' :: ' ' :: t => [] :: splitSteps t
  | '\n' :: rest => [] :: splitSteps rest
  | c :: rest =>
    match splitSteps rest with
    | [] => [[c]]
    | s :: ss => (c :: s) :: ss

/-- `re.split("[,;]", s)`: split on every comma or semicolon. -/
def splitTags : Str → List Str
  | [] => [[]]
  | c :: rest =>
    if c = ',' ∨ c = ';' then [] :: splitTags rest
    else
      match splitTags rest with
      | [] => [[c]]
      | s :: ss => (c :: s) :: ss

/-- One Allure step object `{"name": ..., "expectedResult": ...}`. -/
structure PStep where
  name : Str
  expectedResult : Str
deriving DecidableEq, Repr

/-- One Allure tag object `{"name": ...}`. -/
structure Tag where
  name : Str
deriving DecidableEq, Repr

namespace TestCaseTransformer

open SrcConfig

/-- The body of the `for raw_step in raw_steps` loop of `parse_steps`
applied to one already-split raw segment: strip it, and when the
action/expected separator occurs split on its first occurrence. -/
def mkStep (seg : Str) : PStep :=
  match splitFirst ACTION_EXPECTED_SEPARATOR seg with
  | some (action, expected) => ⟨strip action, strip expected⟩
  | none => ⟨seg, []⟩

/-- The `for` loop of `parse_steps`: strip each raw segment, `continue`
on blank segments, append a step object for the others. -/
def stepsOf : List Str → List PStep
  | [] => []
  | raw :: rest =>
    let r := strip raw
    if r = [] then stepsOf rest else mkStep r :: stepsOf rest

/-- `TestCaseTransformer.parse_steps` (`src/core/transformer.py:13-44`). -/
def parse_steps (steps_str : Str) : List PStep :=
  if strip steps_str = [] then []
  else stepsOf (splitSteps steps_str)

end TestCaseTransformer

namespace ApiKeys

def kProjectId : Str := ['p', 'r', 'o', 'j', 'e', 'c', 't', 'I', 'd']
def kExternalId : Str := ['e', 'x', 't', 'e', 'r', 'n', 'a', 'l', 'I', 'd']
def kName : Str := ['n', 'a', 'm', 'e']
def kPriority : Str := ['p', 'r', 'i', 'o', 'r', 'i', 't', 'y']
def kTags : Str := ['t', 'a', 'g', 's']
def kDescription : Str := ['d', 'e', 's', 'c', 'r', 'i', 'p', 't', 'i', 'o', 'n']
def kSteps : Str := ['s', 't', 'e', 'p', 's']
def kScenario : Str := ['s', 'c', 'e', 'n', 'a', 'r', 'i', 'o']
def kDescPreconditions : Str :=
  ['d', 'e', 's', 'c', 'r', 'i', 'p', 't', 'i', 'o', 'n', '_',
   'p', 'r', 'e', 'c', 'o', 'n', 'd', 'i', 't', 'i', 'o', 'n', 's']
def kDescSteps : Str :=
  ['d', 'e', 's', 'c', 'r', 'i', 'p', 't', 'i', 'o', 'n', '_', 's', 't', 'e', 'p', 's']

end ApiKeys

/-- A value stored in the payload dict built by `transform`. -/
inductive Value where
  | vInt (n : Int)
  | vStr (s : Str)
  | vSteps (l : List PStep)
  | vTags (l : List Tag)
  | vScenario (l : List PStep)
deriving DecidableEq, Repr

/-- A CSV row as handed over by `csv.DictReader`: an ordered mapping from
column name to raw string value. -/
abbrev Row := List (Str × Str)

/-- The payload dict: ordered mapping from API key to value. -/
abbrev Payload := List (Str × Value)

/-- Python `row_data.get(key)`. -/
def rowGet (row : Row) (k : Str) : Option Str :=
  match row with
  | [] => none
  | (k', v) :: rest => if k' = k then some v else rowGet rest k

/-- Dict lookup on the payload. -/
def payloadLookup (p : Payload) (k : Str) : Option Value :=
  match p with
  | [] => none
  | (k', v) :: rest => if k' = k then some v else payloadLookup rest k

/-- Python dict assignment `p[k] = v`: update in place when the key exists,
append otherwise. -/
def setKey (p : Payload) (k : Str) (v : Value) : Payload :=
  match p with
  | [] => [(k, v)]
  | (k', v') :: rest => if k' = k then (k, v) :: rest else (k', v') :: setKey rest k v

/-- The current `payload["description"]` (always present, always a string). -/
def getDescription (p : Payload) : Str :=
  match payloadLookup p ApiKeys.kDescription with
  | some (Value.vStr s) => s
  | _ => []

namespace CsvKeys

def kID : Str := ['I', 'D']
def kTitle : Str := ['T', 'i', 't', 'l', 'e']
def kPriority : Str := ['P', 'r', 'i', 'o', 'r', 'i', 't', 'y']
def kTags : Str := ['T', 'a', 'g', 's']
def kPreconditions : Str :=
  ['P', 'r', 'e', 'c', 'o', 'n', 'd', 'i', 't', 'i', 'o', 'n', 's']
def kSteps : Str := ['S', 't', 'e', 'p', 's']

end CsvKeys

namespace SrcConfig

/-- `config.FIELD_MAPPING`, in Python dict insertion order. -/
def FIELD_MAPPING : List (Str × Str) :=
  [(CsvKeys.kID, ApiKeys.kExternalId),
   (CsvKeys.kTitle, ApiKeys.kName),
   (CsvKeys.kPriority, ApiKeys.kPriority),
   (CsvKeys.kTags, ApiKeys.kTags),
   (CsvKeys.kPreconditions, ApiKeys.kDescPreconditions),
   (CsvKeys.kSteps, ApiKeys.kDescSteps)]

end SrcConfig

namespace TestCaseTransformer

open ApiKeys

/-- `"**Preconditions:**\n"`, the header prepended to a preconditions block. -/
def precondHeader : Str :=
  ['*', '*', 'P', 'r', 'e', 'c', 'o', 'n', 'd', 'i', 't', 'i', 'o', 'n', 's',
   ':', '*', '*', '\n']

/-- The tag list built from a (stripped) `Tags` value:
`[tag.strip() for tag in re.split("[,;]", value) if tag.strip()]`. -/
def tagsOf (value : Str) : List Str :=
  ((splitTags value).map strip).filter (fun t => !t.isEmpty)

/-- One iteration of the `for csv_key, api_key in FIELD_MAPPING.items()` loop
of `transform` (`src/core/transformer.py:57-81`). -/
def transformField (row : Row) (p : Payload) (entry : Str × Str) : Payload :=
  match rowGet row entry.1 with
  | none => p
  | some v0 =>
    if strip v0 = [] then p
    else
      let value := strip v0
      if entry.2 = kDescPreconditions then
        setKey p kDescription
          (Value.vStr (getDescription p ++ precondHeader ++ value ++ ['\n', '\n']))
      else if entry.2 = kDescSteps then
        let steps := parse_steps value
        setKey (setKey p kSteps (Value.vSteps steps)) kScenario (Value.vScenario steps)
      else if entry.2 = kTags then
        setKey p kTags (Value.vTags ((tagsOf value).map Tag.mk))
      else if entry.2 = kPriority then
        setKey p entry.2 (Value.vStr (upper value))
      else
        setKey p entry.2 (Value.vStr value)

/-- `TestCaseTransformer.transform` (`src/core/transformer.py:46-82`),
with the transformer's `project_id` passed explicitly. -/
def transform (project_id : Int) (row_data : Row) : Payload :=
  SrcConfig.FIELD_MAPPING.foldl (transformField row_data)
    [(kProjectId, Value.vInt project_id),
     (kSteps, Value.vSteps []),
     (kTags, Value.vTags []),
     (kDescription, Value.vStr [])]

end TestCaseTransformer

namespace CsvReader

/-- Python truthiness of one raw CSV cell: non-empty string. -/
def truthy (v : Str) : Bool := !v.isEmpty

/-- `any(row.values())`. -/
def anyTruthy (row : Row) : Bool := row.any (fun kv => truthy kv.2)

/-- `CsvReader.read` (`src/core/reader.py:32-46`): the rows the generator
yields, given the parsed rows of the file in order. The `enumerate` index
is unused by the loop body and omitted. -/
def read : List Row → List Row
  | [] => []
  | row :: rest => if anyTruthy row then row :: read rest else read rest

end CsvReader

namespace AllureClient

/-- What one HTTP attempt can come back with, as distinguished by
`migrate_test_case`: a status code, an `asyncio.TimeoutError`, or an
`aiohttp.ClientError`. -/
inductive Resp where
  | status (n : Nat)
  | timeout
  | netError
deriving DecidableEq, Repr

/-- Result of a `migrate_test_case` run: the returned Boolean outcome, the
sequence of `asyncio.sleep` durations in order, and the number of HTTP
requests issued. -/
structure RunLog where
  outcome : Bool
  waits : List Nat
  requests : Nat
deriving DecidableEq, Repr

/-- The `for attempt in range(self.max_retries)` loop of `migrate_test_case`
(`src/core/client.py:29-72`). `server` maps the attempt index to the
response of that attempt; `fuel` is the number of loop iterations left
(`max_retries - attempt`). Falling out of the loop returns `False`. -/
def loop (server : Nat → Resp) (max_retries : Nat) : Nat → Nat → RunLog
  | 0, _ => ⟨false, [], 0⟩
  | fuel + 1, attempt =>
    match server attempt with
    | Resp.status n =>
      if n = 200 ∨ n = 201 then ⟨true, [], 1⟩
      else if n = 429 then
        let r := loop server max_retries fuel (attempt + 1)
        ⟨r.outcome, 2 ^ attempt :: r.waits, r.requests + 1⟩
      else ⟨false, [], 1⟩
    | _ =>
      let r := loop server max_retries fuel (attempt + 1)
      ⟨r.outcome, (if attempt + 1 < max_retries then [1] else []) ++ r.waits,
       r.requests + 1⟩

/-- `migrate_test_case` with its retry loop run from attempt 0. -/
def migrate_test_case (server : Nat → Resp) (max_retries : Nat) : RunLog :=
  loop server max_retries max_retries 0

end AllureClient

namespace Orchestrator

/-- The live-mode batching of `process_migration` (`src/main.py:66-84`):
for each row a task is created (`pending + 1` submissions are then in
flight) and once `len(tasks) >= batch_size` the whole batch is awaited
(`pending` drops to 0). Returns the number of in-flight submissions
observed right after each task creation. -/
def pendingTrace (batch_size : Nat) : List Row → Nat → List Nat
  | [], _ => []
  | _ :: rest, pending =>
    let p' := pending + 1
    p' :: pendingTrace batch_size rest (if batch_size ≤ p' then 0 else p')

/-- `process_migration`'s return value (`src/main.py:100-104`): `True` only
when validation and counting succeeded and no per-record outcome failed;
a fatal exception yields `False`. `outcomes` lists the per-record Booleans
gathered from the submitter (and `False` entries for per-row errors). -/
def processSuccess (validateOk : Bool) (outcomes : List Bool) : Bool :=
  validateOk && (outcomes.count false == 0)

/-- Python truthiness of the `api_token` CLI value: absent or empty. -/
def tokenMissing : Option Str → Bool
  | none => true
  | some s => s.isEmpty

/-- The exit code of `main` (`src/main.py:126-138`): missing token outside
dry-run exits 1 before running; otherwise `sys.exit(0 if success else 1)`. -/
def exitCode (api_token : Option Str) (dry_run : Bool) (success : Bool) : Nat :=
  if tokenMissing api_token && !dry_run then 1
  else if success then 0 else 1

end Orchestrator

namespace TestCaseTransformer

/-- A well-formed `action; Expected: result` step segment: it contains no
newline and no pipe character (so it survives joining with the `" | "`
separator intact), and its stripped form splits at the first occurrence of
the action/expected separator into an action with non-blank trimmed text. -/
def wfSeg (seg : Str) : Prop :=
  (∀ c ∈ seg, c ≠ '\n' ∧ c ≠ '|') ∧
  (match splitFirst SrcConfig.ACTION_EXPECTED_SEPARATOR (strip seg) with
   | some (a, _) => strip a ≠ []
   | none => False)

instance (seg : Str) : Decidable (wfSeg seg) := by
  unfold wfSeg
  cases hs : splitFirst SrcConfig.ACTION_EXPECTED_SEPARATOR (strip seg) with
  | none => exact isFalse (fun h => h.2)
  | some ae =>
    obtain ⟨a, e⟩ := ae
    show Decidable ((∀ c ∈ seg, c ≠ '\n' ∧ c ≠ '|') ∧ strip a ≠ [])
    infer_instance

/-- Join step segments with the `" | "` separator. -/
def joinSegs : List Str → Str
  | [] => []
  | [seg] => seg
  | seg :: rest => seg ++ (SrcConfig.STEP_SEPARATOR ++ joinSegs rest)

end TestCaseTransformer

/-- Append `x` to the last piece of a non-empty list of pieces. -/
def appendLast (l : List Str) (x : Str) : List Str :=
  match l with
  | [] => [x]
  | [t] => [t ++ x]
  | t :: rest => t :: appendLast rest x

/-- The source field named by `k` is absent from the record, or blank after
trimming. -/
def absentOrBlank (row : Row) (k : Str) : Prop :=
  ∀ v, rowGet row k = some v → strip v = []

/-- The sample row of the spec's functional example: project id 100 with
`ID`, `Title`, `Priority`, `Tags`, `Preconditions` and `Steps` columns. -/
def sampleRow : Row :=
  [(CsvKeys.kID, "TC-01".toList),
   (CsvKeys.kTitle, "Test Login".toList),
   (CsvKeys.kPriority, "High".toList),
   (CsvKeys.kTags, "smoke, auth".toList),
   (CsvKeys.kPreconditions, "User exists".toList),
   (CsvKeys.kSteps, "Login; Expected: Success".toList)]

namespace TestCaseTransformer

/-- The initial payload dict of `transform`. -/
def stage0 (pid : Int) : Payload :=
  [(ApiKeys.kProjectId, Value.vInt pid),
   (ApiKeys.kSteps, Value.vSteps []),
   (ApiKeys.kTags, Value.vTags []),
   (ApiKeys.kDescription, Value.vStr [])]

/-- The payload after the `ID` mapping entry. -/
def stage1 (pid : Int) (row : Row) : Payload :=
  transformField row (stage0 pid) (CsvKeys.kID, ApiKeys.kExternalId)

/-- The payload after the `Title` mapping entry. -/
def stage2 (pid : Int) (row : Row) : Payload :=
  transformField row (stage1 pid row) (CsvKeys.kTitle, ApiKeys.kName)

/-- The payload after the `Priority` mapping entry. -/
def stage3 (pid : Int) (row : Row) : Payload :=
  transformField row (stage2 pid row) (CsvKeys.kPriority, ApiKeys.kPriority)

/-- The payload after the `Tags` mapping entry. -/
def stage4 (pid : Int) (row : Row) : Payload :=
  transformField row (stage3 pid row) (CsvKeys.kTags, ApiKeys.kTags)

/-- The payload after the `Preconditions` mapping entry. -/
def stage5 (pid : Int) (row : Row) : Payload :=
  transformField row (stage4 pid row) (CsvKeys.kPreconditions, ApiKeys.kDescPreconditions)

/-- Whether `transformField` on a mapping entry with API key `ak` cannot
touch payload key `k` at all. -/
def notTouched (ak k : Str) : Prop :=
  if ak = ApiKeys.kDescPreconditions then k ≠ ApiKeys.kDescription
  else if ak = ApiKeys.kDescSteps then k ≠ ApiKeys.kSteps ∧ k ≠ ApiKeys.kScenario
  else k ≠ ak

instance (ak k : Str) : Decidable (notTouched ak k) := by
  unfold notTouched; infer_instance

end TestCaseTransformer

theorem payloadLookup_setKey_self (p : Payload) (k : Str) (v : Value) :
    payloadLookup (setKey p k v) k = some v := by
  induction p with
  | nil => simp [setKey, payloadLookup]
  | cons kv rest ih =>
    obtain ⟨k', v'⟩ := kv
    by_cases h : k' = k
    · simp [setKey, h, payloadLookup]
    · simp [setKey, h, payloadLookup, ih]

theorem payloadLookup_setKey_ne (p : Payload) (k k' : Str) (v : Value)
    (h : k' ≠ k) :
    payloadLookup (setKey p k v) k' = payloadLookup p k' := by
  have h' : k ≠ k' := Ne.symm h
  induction p with
  | nil => simp [setKey, payloadLookup, h']
  | cons kv rest ih =>
    obtain ⟨k₀, v₀⟩ := kv
    by_cases h0 : k₀ = k
    · subst h0
      simp [setKey, payloadLookup, h']
    · simp [setKey, h0, payloadLookup, ih]

namespace TestCaseTransformer

theorem transformField_lookup_ne (row : Row) (p : Payload) (ck ak k : Str)
    (h : notTouched ak k) :
    payloadLookup (transformField row p (ck, ak)) k = payloadLookup p k := by
  cases hr : rowGet row ck with
  | none => simp [transformField, hr]
  | some v0 =>
    by_cases hb : strip v0 = []
    · simp [transformField, hr, hb]
    · by_cases h1 : ak = ApiKeys.kDescPreconditions
      · subst h1
        simp only [notTouched, if_pos rfl] at h
        simp [transformField, hr, hb, payloadLookup_setKey_ne _ _ _ _ h]
      · by_cases h2 : ak = ApiKeys.kDescSteps
        · subst h2
          simp only [notTouched, if_neg h1, if_pos rfl] at h
          simp [transformField, hr, hb, h1,
            payloadLookup_setKey_ne _ _ _ _ h.2, payloadLookup_setKey_ne _ _ _ _ h.1]
        · simp only [notTouched, if_neg h1, if_neg h2] at h
          by_cases h3 : ak = ApiKeys.kTags
          · subst h3
            simp [transformField, hr, hb, h1, h2,
              payloadLookup_setKey_ne _ _ _ _ h]
          · by_cases h4 : ak = ApiKeys.kPriority
            · subst h4
              simp [transformField, hr, hb, h1, h2, h3,
                payloadLookup_setKey_ne _ _ _ _ h]
            · simp [transformField, hr, hb, h1, h2, h3, h4,
                payloadLookup_setKey_ne _ _ _ _ h]

/-- `transformField` on a plain pass-through mapping entry. -/
theorem transformField_pass (row : Row) (p : Payload) (ck ak : Str)
    (h1 : ak ≠ ApiKeys.kDescPreconditions) (h2 : ak ≠ ApiKeys.kDescSteps)
    (h3 : ak ≠ ApiKeys.kTags) (h4 : ak ≠ ApiKeys.kPriority) :
    transformField row p (ck, ak) =
      match rowGet row ck with
      | none => p
      | some v0 =>
        if strip v0 = [] then p else setKey p ak (Value.vStr (strip v0)) := by
  cases hr : rowGet row ck with
  | none => simp [transformField, hr]
  | some v0 =>
    by_cases hb : strip v0 = []
    · simp [transformField, hr, hb]
    · simp [transformField, hr, hb, h1, h2, h3, h4]

/-- `transformField` on the `Priority` mapping entry upper-cases the value. -/
theorem transformField_prio (row : Row) (p : Payload) (ck : Str) :
    transformField row p (ck, ApiKeys.kPriority) =
      match rowGet row ck with
      | none => p
      | some v0 =>
        if strip v0 = [] then p
        else setKey p ApiKeys.kPriority (Value.vStr (upper (strip v0))) := by
  have c1 : ApiKeys.kPriority ≠ ApiKeys.kDescPreconditions := by decide
  have c2 : ApiKeys.kPriority ≠ ApiKeys.kDescSteps := by decide
  have c3 : ApiKeys.kPriority ≠ ApiKeys.kTags := by decide
  cases hr : rowGet row ck with
  | none => simp [transformField, hr]
  | some v0 =>
    by_cases hb : strip v0 = []
    · simp [transformField, hr, hb]
    · simp [transformField, hr, hb, c1, c2, c3]

end TestCaseTransformer

namespace TestCaseTransformer

theorem transform_eq_stages (pid : Int) (row : Row) :
    transform pid row =
      transformField row (stage5 pid row) (CsvKeys.kSteps, ApiKeys.kDescSteps) := rfl

theorem transform_lookup_projectId (pid : Int) (row : Row) :
    payloadLookup (transform pid row) ApiKeys.kProjectId = some (Value.vInt pid) := by
  rw [transform_eq_stages, transformField_lookup_ne _ _ _ _ _ (by decide)]
  simp only [stage5]; rw [transformField_lookup_ne _ _ _ _ _ (by decide)]
  simp only [stage4]; rw [transformField_lookup_ne _ _ _ _ _ (by decide)]
  simp only [stage3]; rw [transformField_lookup_ne _ _ _ _ _ (by decide)]
  simp only [stage2]; rw [transformField_lookup_ne _ _ _ _ _ (by decide)]
  simp only [stage1]; rw [transformField_lookup_ne _ _ _ _ _ (by decide)]
  rfl

theorem transform_lookup_externalId (pid : Int) (row : Row) :
    payloadLookup (transform pid row) ApiKeys.kExternalId =
      match rowGet row CsvKeys.kID with
      | none => none
      | some v => if strip v = [] then none else some (Value.vStr (strip v)) := by
  rw [transform_eq_stages, transformField_lookup_ne _ _ _ _ _ (by decide)]
  simp only [stage5]; rw [transformField_lookup_ne _ _ _ _ _ (by decide)]
  simp only [stage4]; rw [transformField_lookup_ne _ _ _ _ _ (by decide)]
  simp only [stage3]; rw [transformField_lookup_ne _ _ _ _ _ (by decide)]
  simp only [stage2]; rw [transformField_lookup_ne _ _ _ _ _ (by decide)]
  simp only [stage1]
  rw [transformField_pass _ _ _ _ (by decide) (by decide) (by decide) (by decide)]
  cases hr : rowGet row CsvKeys.kID with
  | none => rfl
  | some v =>
    by_cases hb : strip v = []
    · simp [hb]; rfl
    · simp [hb, payloadLookup_setKey_self]

theorem transform_lookup_name (pid : Int) (row : Row) :
    payloadLookup (transform pid row) ApiKeys.kName =
      match rowGet row CsvKeys.kTitle with
      | none => none
      | some v => if strip v = [] then none else some (Value.vStr (strip v)) := by
  rw [transform_eq_stages, transformField_lookup_ne _ _ _ _ _ (by decide)]
  simp only [stage5]; rw [transformField_lookup_ne _ _ _ _ _ (by decide)]
  simp only [stage4]; rw [transformField_lookup_ne _ _ _ _ _ (by decide)]
  simp only [stage3]; rw [transformField_lookup_ne _ _ _ _ _ (by decide)]
  simp only [stage2]
  rw [transformField_pass _ _ _ _ (by decide) (by decide) (by decide) (by decide)]
  cases hr : rowGet row CsvKeys.kTitle with
  | none =>
    simp only [stage1]
    rw [transformField_lookup_ne _ _ _ _ _ (by decide)]
    rfl
  | some v =>
    by_cases hb : strip v = []
    · have h1 : payloadLookup (stage1 pid row) ApiKeys.kName = none := by
        simp only [stage1]
        rw [transformField_lookup_ne _ _ _ _ _ (by decide)]
        rfl
      simp [hb, h1]
    · simp [hb, payloadLookup_setKey_self]

theorem transform_lookup_priority (pid : Int) (row : Row) :
    payloadLookup (transform pid row) ApiKeys.kPriority =
      match rowGet row CsvKeys.kPriority with
      | none => none
      | some v => if strip v = [] then none
                  else some (Value.vStr (upper (strip v))) := by
  rw [transform_eq_stages, transformField_lookup_ne _ _ _ _ _ (by decide)]
  simp only [stage5]; rw [transformField_lookup_ne _ _ _ _ _ (by decide)]
  simp only [stage4]; rw [transformField_lookup_ne _ _ _ _ _ (by decide)]
  simp only [stage3]
  rw [transformField_prio]
  cases hr : rowGet row CsvKeys.kPriority with
  | none =>
    simp only [stage2]; rw [transformField_lookup_ne _ _ _ _ _ (by decide)]
    simp only [stage1]; rw [transformField_lookup_ne _ _ _ _ _ (by decide)]
    rfl
  | some v =>
    by_cases hb : strip v = []
    · have h1 : payloadLookup (stage2 pid row) ApiKeys.kPriority = none := by
        simp only [stage2]; rw [transformField_lookup_ne _ _ _ _ _ (by decide)]
        simp only [stage1]; rw [transformField_lookup_ne _ _ _ _ _ (by decide)]
        rfl
      simp [hb, h1]
    · simp [hb, payloadLookup_setKey_self]

/-- `transformField` on the `Tags` mapping entry. -/
theorem transformField_tags (row : Row) (p : Payload) (ck : Str) :
    transformField row p (ck, ApiKeys.kTags) =
      match rowGet row ck with
      | none => p
      | some v0 =>
        if strip v0 = [] then p
        else setKey p ApiKeys.kTags (Value.vTags ((tagsOf (strip v0)).map Tag.mk)) := by
  have c1 : ApiKeys.kTags ≠ ApiKeys.kDescPreconditions := by decide
  have c2 : ApiKeys.kTags ≠ ApiKeys.kDescSteps := by decide
  cases hr : rowGet row ck with
  | none => simp [transformField, hr]
  | some v0 =>
    by_cases hb : strip v0 = []
    · simp [transformField, hr, hb]
    · simp [transformField, hr, hb, c1, c2]

/-- `transformField` on the `Preconditions` mapping entry appends the
labelled block to the running description. -/
theorem transformField_precond (row : Row) (p : Payload) (ck : Str) :
    transformField row p (ck, ApiKeys.kDescPreconditions) =
      match rowGet row ck with
      | none => p
      | some v0 =>
        if strip v0 = [] then p
        else setKey p ApiKeys.kDescription
          (Value.vStr (getDescription p ++ precondHeader ++ strip v0 ++ ['\n', '\n'])) := by
  cases hr : rowGet row ck with
  | none => simp [transformField, hr]
  | some v0 =>
    by_cases hb : strip v0 = []
    · simp [transformField, hr, hb]
    · simp [transformField, hr, hb]

/-- `transformField` on the `Steps` mapping entry sets both `steps` and
`scenario`. -/
theorem transformField_steps (row : Row) (p : Payload) (ck : Str) :
    transformField row p (ck, ApiKeys.kDescSteps) =
      match rowGet row ck with
      | none => p
      | some v0 =>
        if strip v0 = [] then p
        else
          setKey (setKey p ApiKeys.kSteps (Value.vSteps (parse_steps (strip v0))))
            ApiKeys.kScenario (Value.vScenario (parse_steps (strip v0))) := by
  have c1 : ApiKeys.kDescSteps ≠ ApiKeys.kDescPreconditions := by decide
  cases hr : rowGet row ck with
  | none => simp [transformField, hr]
  | some v0 =>
    by_cases hb : strip v0 = []
    · simp [transformField, hr, hb]
    · simp [transformField, hr, hb, c1]

theorem transform_lookup_tags (pid : Int) (row : Row) :
    payloadLookup (transform pid row) ApiKeys.kTags =
      some (Value.vTags
        (match rowGet row CsvKeys.kTags with
        | none => []
        | some v => if strip v = [] then []
                    else (tagsOf (strip v)).map Tag.mk)) := by
  rw [transform_eq_stages, transformField_lookup_ne _ _ _ _ _ (by decide)]
  simp only [stage5]; rw [transformField_lookup_ne _ _ _ _ _ (by decide)]
  simp only [stage4]
  rw [transformField_tags]
  have h3 : payloadLookup (stage3 pid row) ApiKeys.kTags = some (Value.vTags []) := by
    simp only [stage3]; rw [transformField_lookup_ne _ _ _ _ _ (by decide)]
    simp only [stage2]; rw [transformField_lookup_ne _ _ _ _ _ (by decide)]
    simp only [stage1]; rw [transformField_lookup_ne _ _ _ _ _ (by decide)]
    rfl
  cases hr : rowGet row CsvKeys.kTags with
  | none => simp [h3]
  | some v =>
    by_cases hb : strip v = []
    · simp [hb, h3]
    · simp [hb, payloadLookup_setKey_self]

theorem transform_lookup_description (pid : Int) (row : Row) :
    payloadLookup (transform pid row) ApiKeys.kDescription =
      some (Value.vStr
        (match rowGet row CsvKeys.kPreconditions with
        | none => []
        | some v => if strip v = [] then []
                    else precondHeader ++ strip v ++ ['\n', '\n'])) := by
  rw [transform_eq_stages, transformField_lookup_ne _ _ _ _ _ (by decide)]
  simp only [stage5]
  rw [transformField_precond]
  have h4 : payloadLookup (stage4 pid row) ApiKeys.kDescription = some (Value.vStr []) := by
    simp only [stage4]; rw [transformField_lookup_ne _ _ _ _ _ (by decide)]
    simp only [stage3]; rw [transformField_lookup_ne _ _ _ _ _ (by decide)]
    simp only [stage2]; rw [transformField_lookup_ne _ _ _ _ _ (by decide)]
    simp only [stage1]; rw [transformField_lookup_ne _ _ _ _ _ (by decide)]
    rfl
  have hg : getDescription (stage4 pid row) = [] := by
    simp [getDescription, h4]
  cases hr : rowGet row CsvKeys.kPreconditions with
  | none => simp [h4]
  | some v =>
    by_cases hb : strip v = []
    · simp [hb, h4]
    · simp [hb, hg, payloadLookup_setKey_self]

theorem transform_lookup_steps (pid : Int) (row : Row) :
    payloadLookup (transform pid row) ApiKeys.kSteps =
      some (Value.vSteps
        (match rowGet row CsvKeys.kSteps with
        | none => []
        | some v => if strip v = [] then [] else parse_steps (strip v))) := by
  rw [transform_eq_stages, transformField_steps]
  have h5 : payloadLookup (stage5 pid row) ApiKeys.kSteps = some (Value.vSteps []) := by
    simp only [stage5]; rw [transformField_lookup_ne _ _ _ _ _ (by decide)]
    simp only [stage4]; rw [transformField_lookup_ne _ _ _ _ _ (by decide)]
    simp only [stage3]; rw [transformField_lookup_ne _ _ _ _ _ (by decide)]
    simp only [stage2]; rw [transformField_lookup_ne _ _ _ _ _ (by decide)]
    simp only [stage1]; rw [transformField_lookup_ne _ _ _ _ _ (by decide)]
    rfl
  have hne : ApiKeys.kSteps ≠ ApiKeys.kScenario := by decide
  cases hr : rowGet row CsvKeys.kSteps with
  | none => simp [h5]
  | some v =>
    by_cases hb : strip v = []
    · simp [hb, h5]
    · simp [hb, payloadLookup_setKey_ne _ _ _ _ hne, payloadLookup_setKey_self]

theorem transform_lookup_scenario (pid : Int) (row : Row) :
    payloadLookup (transform pid row) ApiKeys.kScenario =
      match rowGet row CsvKeys.kSteps with
      | none => none
      | some v => if strip v = [] then none
                  else some (Value.vScenario (parse_steps (strip v))) := by
  rw [transform_eq_stages, transformField_steps]
  have h5 : payloadLookup (stage5 pid row) ApiKeys.kScenario = none := by
    simp only [stage5]; rw [transformField_lookup_ne _ _ _ _ _ (by decide)]
    simp only [stage4]; rw [transformField_lookup_ne _ _ _ _ _ (by decide)]
    simp only [stage3]; rw [transformField_lookup_ne _ _ _ _ _ (by decide)]
    simp only [stage2]; rw [transformField_lookup_ne _ _ _ _ _ (by decide)]
    simp only [stage1]; rw [transformField_lookup_ne _ _ _ _ _ (by decide)]
    rfl
  cases hr : rowGet row CsvKeys.kSteps with
  | none => simp [h5]
  | some v =>
    by_cases hb : strip v = []
    · simp [hb, h5]
    · simp [hb, payloadLookup_setKey_self]

end TestCaseTransformer

theorem read_eq_filter (rows : List Row) :
    CsvReader.read rows = rows.filter (fun r => CsvReader.anyTruthy r) := by
  induction rows with
  | nil => rfl
  | cons r rest ih =>
    by_cases h : CsvReader.anyTruthy r <;> simp [CsvReader.read, h, ih]

/-- C4 (counterexample): `CsvReader.read` does not skip rows by the
trimmed-emptiness criterion of the claim: a row whose only value is a
single space is yielded by the code although every column value is
whitespace-only after trimming. -/
theorem c4_counterexample :
    ¬ (∀ rows : List Row, CsvReader.read rows =
        rows.filter (fun r => r.any (fun kv => !(strip kv.2).isEmpty))) := by
  intro h
  exact absurd (h [[(CsvKeys.kID, [' '])]]) (by decide)

/-- C4 (amended): `CsvReader.read` yields rows in file order and skips
exactly those rows in which every column value is the empty string (without
trimming): a row containing any non-empty value, even whitespace-only, is
yielded. -/
theorem c4_read_skips_raw_empty_rows (rows : List Row) :
    CsvReader.read rows = rows.filter (fun r => r.any (fun kv => !kv.2.isEmpty)) ∧
    (CsvReader.read rows).Sublist rows := by
  have he := read_eq_filter rows
  constructor
  · rw [he]; rfl
  · rw [he]; exact List.filter_sublist rows

/-- C5: a 429 response on attempt `k` makes `migrate_test_case` sleep
`2^k` time units and retry, consuming one retry slot; against a server
answering 429, 429, 201 the run returns success with waits 1 then 2; with
429 on every attempt and the default 3 retries it returns failure. -/
theorem c5_rate_limit_backoff :
    (∀ (server : Nat → AllureClient.Resp) (max_retries fuel attempt : Nat),
      server attempt = AllureClient.Resp.status 429 →
      AllureClient.loop server max_retries (fuel + 1) attempt =
        { outcome := (AllureClient.loop server max_retries fuel (attempt + 1)).outcome,
          waits := 2 ^ attempt :: (AllureClient.loop server max_retries fuel (attempt + 1)).waits,
          requests := (AllureClient.loop server max_retries fuel (attempt + 1)).requests + 1 }) ∧
    AllureClient.migrate_test_case
        (fun a => if a < 2 then AllureClient.Resp.status 429 else AllureClient.Resp.status 201) 3 =
      { outcome := true, waits := [1, 2], requests := 3 } ∧
    AllureClient.migrate_test_case (fun _ => AllureClient.Resp.status 429) 3 =
      { outcome := false, waits := [1, 2, 4], requests := 3 } := by
  refine ⟨?_, by decide, by decide⟩
  intro server max_retries fuel attempt h
  simp [AllureClient.loop, h]

/-- C5 witness: the backoff conjunct applied at a concrete server that
rate-limits the only attempt of a single-retry run. -/
theorem c5_rate_limit_backoff_witness :
    AllureClient.loop (fun _ => AllureClient.Resp.status 429) 1 1 0 =
      { outcome := false, waits := [1], requests := 1 } := by
  rw [c5_rate_limit_backoff.1 (fun _ => AllureClient.Resp.status 429) 1 0 0 rfl]
  decide

/-- C6: any HTTP status other than 200, 201 and 429 makes
`migrate_test_case` return failure immediately: no sleep and exactly one
request, however many retry slots remain. -/
theorem c6_non_retryable_fails_immediately (server : Nat → AllureClient.Resp)
    (max_retries fuel attempt n : Nat)
    (hs : server attempt = AllureClient.Resp.status n)
    (h1 : ¬(n = 200 ∨ n = 201)) (h2 : n ≠ 429) :
    AllureClient.loop server max_retries (fuel + 1) attempt =
      { outcome := false, waits := [], requests := 1 } := by
  simp [AllureClient.loop, hs, h1, h2]

/-- C6 witness: a server answering 500 with two retry slots left. -/
theorem c6_non_retryable_fails_immediately_witness :
    AllureClient.loop (fun _ => AllureClient.Resp.status 500) 3 3 0 =
      { outcome := false, waits := [], requests := 1 } :=
  c6_non_retryable_fails_immediately (fun _ => AllureClient.Resp.status 500) 3 2 0 500
    rfl (by decide) (by decide)

theorem pendingTrace_bound (B : Nat) (rows : List Row) (pending : Nat)
    (hp : pending < B) :
    ∀ c ∈ Orchestrator.pendingTrace B rows pending, c ≤ B := by
  induction rows generalizing pending with
  | nil => simp [Orchestrator.pendingTrace]
  | cons r rest ih =>
    intro c hc
    simp only [Orchestrator.pendingTrace, List.mem_cons] at hc
    rcases hc with h | h
    · omega
    · by_cases hB : B ≤ pending + 1
      · rw [if_pos hB] at h; exact ih 0 (by omega) c h
      · rw [if_neg hB] at h; exact ih (pending + 1) (by omega) c h

/-- C7: with a positive pool width, the orchestrator's batching never has
more than `batch_size` submissions in flight: every pending count observed
right after a task creation is at most `batch_size`. -/
theorem c7_concurrency_ceiling (batch_size : Nat) (rows : List Row)
    (hB : 1 ≤ batch_size) :
    ∀ c ∈ Orchestrator.pendingTrace batch_size rows 0, c ≤ batch_size :=
  pendingTrace_bound batch_size rows 0 (by omega)

/-- C7 witness: the default pool width 10 over a three-row run; the last
observed pending count, 3, is within the ceiling. -/
theorem c7_concurrency_ceiling_witness :
    Orchestrator.pendingTrace 10 [[], [], []] 0 = [1, 2, 3] ∧ 3 ≤ 10 :=
  ⟨by decide, c7_concurrency_ceiling 10 [[], [], []] (by decide) 3 (by decide)⟩

/-- C9: the process exits 0 exactly when the credential check passes
(token present or dry-run), validation succeeded, and no record failed;
any failed record or fatal setup error yields a non-zero exit. -/
theorem c9_exit_contract (api_token : Option Str) (dry_run : Bool)
    (validateOk : Bool) (outcomes : List Bool) :
    Orchestrator.exitCode api_token dry_run
        (Orchestrator.processSuccess validateOk outcomes) = 0 ↔
      ((Orchestrator.tokenMissing api_token = false ∨ dry_run = true) ∧
        validateOk = true ∧ outcomes.count false = 0) := by
  cases dry_run <;> cases validateOk <;>
    by_cases ht : Orchestrator.tokenMissing api_token = true <;>
      by_cases hc : outcomes.count false = 0 <;>
        simp [Orchestrator.exitCode, Orchestrator.processSuccess, ht, hc]

namespace TestCaseTransformer

theorem transform_lookup_other (pid : Int) (row : Row) (k : Str)
    (h1 : k ≠ ApiKeys.kProjectId) (h2 : k ≠ ApiKeys.kExternalId)
    (h3 : k ≠ ApiKeys.kName) (h4 : k ≠ ApiKeys.kPriority)
    (h5 : k ≠ ApiKeys.kTags) (h6 : k ≠ ApiKeys.kDescription)
    (h7 : k ≠ ApiKeys.kSteps) (h8 : k ≠ ApiKeys.kScenario) :
    payloadLookup (transform pid row) k = none := by
  have n6 : notTouched ApiKeys.kDescSteps k := by
    unfold notTouched
    rw [if_neg (by decide : ¬(ApiKeys.kDescSteps = ApiKeys.kDescPreconditions)), if_pos rfl]
    exact ⟨h7, h8⟩
  have n5 : notTouched ApiKeys.kDescPreconditions k := by
    unfold notTouched; rw [if_pos rfl]; exact h6
  have n4 : notTouched ApiKeys.kTags k := by
    unfold notTouched
    rw [if_neg (by decide : ¬(ApiKeys.kTags = ApiKeys.kDescPreconditions)),
      if_neg (by decide : ¬(ApiKeys.kTags = ApiKeys.kDescSteps))]
    exact h5
  have n3 : notTouched ApiKeys.kPriority k := by
    unfold notTouched
    rw [if_neg (by decide : ¬(ApiKeys.kPriority = ApiKeys.kDescPreconditions)),
      if_neg (by decide : ¬(ApiKeys.kPriority = ApiKeys.kDescSteps))]
    exact h4
  have n2 : notTouched ApiKeys.kName k := by
    unfold notTouched
    rw [if_neg (by decide : ¬(ApiKeys.kName = ApiKeys.kDescPreconditions)),
      if_neg (by decide : ¬(ApiKeys.kName = ApiKeys.kDescSteps))]
    exact h3
  have n1 : notTouched ApiKeys.kExternalId k := by
    unfold notTouched
    rw [if_neg (by decide : ¬(ApiKeys.kExternalId = ApiKeys.kDescPreconditions)),
      if_neg (by decide : ¬(ApiKeys.kExternalId = ApiKeys.kDescSteps))]
    exact h2
  rw [transform_eq_stages, transformField_lookup_ne _ _ _ _ _ n6]
  simp only [stage5]; rw [transformField_lookup_ne _ _ _ _ _ n5]
  simp only [stage4]; rw [transformField_lookup_ne _ _ _ _ _ n4]
  simp only [stage3]; rw [transformField_lookup_ne _ _ _ _ _ n3]
  simp only [stage2]; rw [transformField_lookup_ne _ _ _ _ _ n2]
  simp only [stage1]; rw [transformField_lookup_ne _ _ _ _ _ n1]
  simp [stage0, payloadLookup, Ne.symm h1, Ne.symm h5, Ne.symm h6, Ne.symm h7]

end TestCaseTransformer

/-- C1 (counterexample): for the empty source record every field is absent,
yet the payload built by `transform` contains the key `description` with
the empty string as its value — refuting both that absent/blank source
fields never appear as payload keys and that no payload value is an empty
string. -/
theorem c1_counterexample :
    payloadLookup (TestCaseTransformer.transform 100 ([] : Row)) ApiKeys.kDescription
      = some (Value.vStr []) ∧
    rowGet ([] : Row) CsvKeys.kPreconditions = none := by decide

/-- C1 (amended): the directly mapped keys `externalId`, `name`, `priority`
(and `scenario`) appear in the payload exactly when their source field is
present and non-blank after trimming, and no payload key other than the
always-present `description` ever holds an empty string value. The payload
does always contain `projectId`, `steps`, `tags` and `description`, and
`description` is the empty string when `Preconditions` is absent/blank. -/
theorem c1_amended_no_blank_pollution (pid : Int) (row : Row) :
    ((payloadLookup (TestCaseTransformer.transform pid row) ApiKeys.kExternalId).isSome
        ↔ ∃ v, rowGet row CsvKeys.kID = some v ∧ strip v ≠ []) ∧
    ((payloadLookup (TestCaseTransformer.transform pid row) ApiKeys.kName).isSome
        ↔ ∃ v, rowGet row CsvKeys.kTitle = some v ∧ strip v ≠ []) ∧
    ((payloadLookup (TestCaseTransformer.transform pid row) ApiKeys.kPriority).isSome
        ↔ ∃ v, rowGet row CsvKeys.kPriority = some v ∧ strip v ≠ []) ∧
    ((payloadLookup (TestCaseTransformer.transform pid row) ApiKeys.kScenario).isSome
        ↔ ∃ v, rowGet row CsvKeys.kSteps = some v ∧ strip v ≠ []) ∧
    (∀ k s, payloadLookup (TestCaseTransformer.transform pid row) k
        = some (Value.vStr s) → s = [] → k = ApiKeys.kDescription) := by
  refine ⟨?_, ?_, ?_, ?_, ?_⟩
  · rw [TestCaseTransformer.transform_lookup_externalId]
    cases hr : rowGet row CsvKeys.kID with
    | none => simp
    | some v => by_cases hb : strip v = [] <;> simp [hb]
  · rw [TestCaseTransformer.transform_lookup_name]
    cases hr : rowGet row CsvKeys.kTitle with
    | none => simp
    | some v => by_cases hb : strip v = [] <;> simp [hb]
  · rw [TestCaseTransformer.transform_lookup_priority]
    cases hr : rowGet row CsvKeys.kPriority with
    | none => simp
    | some v => by_cases hb : strip v = [] <;> simp [hb]
  · rw [TestCaseTransformer.transform_lookup_scenario]
    cases hr : rowGet row CsvKeys.kSteps with
    | none => simp
    | some v => by_cases hb : strip v = [] <;> simp [hb]
  · intro k s hl he
    subst he
    by_cases h6 : k = ApiKeys.kDescription
    · exact h6
    by_cases h1 : k = ApiKeys.kProjectId
    · subst h1; rw [TestCaseTransformer.transform_lookup_projectId] at hl; simp at hl
    by_cases h2 : k = ApiKeys.kExternalId
    · subst h2
      rw [TestCaseTransformer.transform_lookup_externalId] at hl
      cases hr : rowGet row CsvKeys.kID with
      | none => rw [hr] at hl; simp at hl
      | some v =>
        rw [hr] at hl
        by_cases hb : strip v = []
        · simp [hb] at hl
        · simp [hb] at hl
    by_cases h3 : k = ApiKeys.kName
    · subst h3
      rw [TestCaseTransformer.transform_lookup_name] at hl
      cases hr : rowGet row CsvKeys.kTitle with
      | none => rw [hr] at hl; simp at hl
      | some v =>
        rw [hr] at hl
        by_cases hb : strip v = []
        · simp [hb] at hl
        · simp [hb] at hl
    by_cases h4 : k = ApiKeys.kPriority
    · subst h4
      rw [TestCaseTransformer.transform_lookup_priority] at hl
      cases hr : rowGet row CsvKeys.kPriority with
      | none => rw [hr] at hl; simp at hl
      | some v =>
        rw [hr] at hl
        by_cases hb : strip v = []
        · simp [hb] at hl
        · simp [hb, upper] at hl
    by_cases h5 : k = ApiKeys.kTags
    · subst h5; rw [TestCaseTransformer.transform_lookup_tags] at hl; simp at hl
    by_cases h7 : k = ApiKeys.kSteps
    · subst h7; rw [TestCaseTransformer.transform_lookup_steps] at hl; simp at hl
    by_cases h8 : k = ApiKeys.kScenario
    · subst h8
      rw [TestCaseTransformer.transform_lookup_scenario] at hl
      cases hr : rowGet row CsvKeys.kSteps with
      | none => rw [hr] at hl; simp at hl
      | some v =>
        rw [hr] at hl
        by_cases hb : strip v = []
        · simp [hb] at hl
        · simp [hb] at hl
    rw [TestCaseTransformer.transform_lookup_other pid row k h1 h2 h3 h4 h5 h6 h7 h8] at hl
    simp at hl

/-- C1 amended witness: at the empty record, no pass-through key is
present, and the violation is confined to `description`. -/
theorem c1_amended_no_blank_pollution_witness :
    (payloadLookup (TestCaseTransformer.transform 100 ([] : Row)) ApiKeys.kExternalId).isSome
      = false := by
  have h := (c1_amended_no_blank_pollution 100 ([] : Row)).1
  rw [Bool.eq_false_iff]
  intro hs
  obtain ⟨v, hv, -⟩ := h.mp hs
  simp [rowGet] at hv

/-- C2 (counterexample): on the spec's sample row, the description built by
`transform` is `"**Preconditions:**\nUser exists\n\n"` (the header carries
markdown bold markers), so it does not contain the claimed substring
`"Preconditions:\nUser exists"` — the colon is followed by `**`, not by a
newline. -/
theorem c2_counterexample :
    payloadLookup (TestCaseTransformer.transform 100 sampleRow) ApiKeys.kDescription
      = some (Value.vStr ("**Preconditions:**\nUser exists\n\n".toList)) ∧
    containsSub "Preconditions:\nUser exists".toList
      "**Preconditions:**\nUser exists\n\n".toList = false := by decide

/-- C2 (amended): the sample row with project id 100 yields a payload with
`name="Test Login"`, `priority="HIGH"`, `externalId="TC-01"`,
`projectId=100`, a description containing `"**Preconditions:**\nUser
exists"`, and exactly one step whose expectedResult is `"Success"`. -/
theorem c2_sample_row_payload :
    payloadLookup (TestCaseTransformer.transform 100 sampleRow) ApiKeys.kName
      = some (Value.vStr "Test Login".toList) ∧
    payloadLookup (TestCaseTransformer.transform 100 sampleRow) ApiKeys.kPriority
      = some (Value.vStr "HIGH".toList) ∧
    payloadLookup (TestCaseTransformer.transform 100 sampleRow) ApiKeys.kExternalId
      = some (Value.vStr "TC-01".toList) ∧
    payloadLookup (TestCaseTransformer.transform 100 sampleRow) ApiKeys.kProjectId
      = some (Value.vInt 100) ∧
    payloadLookup (TestCaseTransformer.transform 100 sampleRow) ApiKeys.kDescription
      = some (Value.vStr "**Preconditions:**\nUser exists\n\n".toList) ∧
    containsSub "**Preconditions:**\nUser exists".toList
      "**Preconditions:**\nUser exists\n\n".toList = true ∧
    payloadLookup (TestCaseTransformer.transform 100 sampleRow) ApiKeys.kSteps
      = some (Value.vSteps [⟨"Login".toList, "Success".toList⟩]) := by decide

/-- C10: the payload always contains `projectId` (equal to the constructor
project id), `steps`, `tags` and `description`, whatever columns the row
has; when the corresponding source fields are absent or blank these default
to the empty list, empty list and empty string. -/
theorem c10_payload_defaults (pid : Int) (row : Row) :
    payloadLookup (TestCaseTransformer.transform pid row) ApiKeys.kProjectId
      = some (Value.vInt pid) ∧
    (∃ l, payloadLookup (TestCaseTransformer.transform pid row) ApiKeys.kSteps
      = some (Value.vSteps l)) ∧
    (∃ l, payloadLookup (TestCaseTransformer.transform pid row) ApiKeys.kTags
      = some (Value.vTags l)) ∧
    (∃ s, payloadLookup (TestCaseTransformer.transform pid row) ApiKeys.kDescription
      = some (Value.vStr s)) ∧
    (absentOrBlank row CsvKeys.kSteps →
      payloadLookup (TestCaseTransformer.transform pid row) ApiKeys.kSteps
        = some (Value.vSteps [])) ∧
    (absentOrBlank row CsvKeys.kTags →
      payloadLookup (TestCaseTransformer.transform pid row) ApiKeys.kTags
        = some (Value.vTags [])) ∧
    (absentOrBlank row CsvKeys.kPreconditions →
      payloadLookup (TestCaseTransformer.transform pid row) ApiKeys.kDescription
        = some (Value.vStr [])) := by
  refine ⟨TestCaseTransformer.transform_lookup_projectId pid row, ?_, ?_, ?_, ?_, ?_, ?_⟩
  · rw [TestCaseTransformer.transform_lookup_steps]; exact ⟨_, rfl⟩
  · rw [TestCaseTransformer.transform_lookup_tags]; exact ⟨_, rfl⟩
  · rw [TestCaseTransformer.transform_lookup_description]; exact ⟨_, rfl⟩
  · intro h
    rw [TestCaseTransformer.transform_lookup_steps]
    cases hr : rowGet row CsvKeys.kSteps with
    | none => rfl
    | some v => simp [h v hr]
  · intro h
    rw [TestCaseTransformer.transform_lookup_tags]
    cases hr : rowGet row CsvKeys.kTags with
    | none => rfl
    | some v => simp [h v hr]
  · intro h
    rw [TestCaseTransformer.transform_lookup_description]
    cases hr : rowGet row CsvKeys.kPreconditions with
    | none => rfl
    | some v => simp [h v hr]

/-- C10 witness: the defaults at the empty record. -/
theorem c10_payload_defaults_witness :
    payloadLookup (TestCaseTransformer.transform 100 ([] : Row)) ApiKeys.kSteps
      = some (Value.vSteps []) ∧
    payloadLookup (TestCaseTransformer.transform 100 ([] : Row)) ApiKeys.kTags
      = some (Value.vTags []) ∧
    payloadLookup (TestCaseTransformer.transform 100 ([] : Row)) ApiKeys.kDescription
      = some (Value.vStr []) := by
  obtain ⟨-, -, -, -, h5, h6, h7⟩ := c10_payload_defaults 100 ([] : Row)
  exact ⟨h5 (fun v h => nomatch h), h6 (fun v h => nomatch h), h7 (fun v h => nomatch h)⟩

theorem ws_not_sep {c : Char} (hc : pyIsSpace c = true) : ¬(c = ',' ∨ c = ';') := by
  intro h
  rcases h with h | h <;> subst h <;> exact absurd hc (by decide)

theorem splitTags_ne_nil (s : Str) : splitTags s ≠ [] := by
  cases s with
  | nil => simp [splitTags]
  | cons c rest =>
    by_cases h : c = ',' ∨ c = ';'
    · simp [splitTags, h]
    · simp only [splitTags]
      rw [if_neg h]
      cases hsp : splitTags rest <;> simp

theorem splitTags_append_nonsep (c : Char) (hc : ¬(c = ',' ∨ c = ';')) :
    ∀ s : Str, splitTags (s ++ [c]) = appendLast (splitTags s) [c] := by
  intro s
  induction s with
  | nil =>
    simp only [List.nil_append, splitTags, appendLast]
    rw [if_neg hc]
  | cons d s ih =>
    obtain ⟨a, l, hsp⟩ := List.exists_cons_of_ne_nil (splitTags_ne_nil s)
    by_cases hd : d = ',' ∨ d = ';'
    · show splitTags (d :: (s ++ [c])) = appendLast (splitTags (d :: s)) [c]
      simp only [splitTags]
      rw [if_pos hd, if_pos hd, ih, hsp]
      rfl
    · show splitTags (d :: (s ++ [c])) = appendLast (splitTags (d :: s)) [c]
      simp only [splitTags]
      rw [if_neg hd, if_neg hd, ih, hsp]
      cases l with
      | nil => rfl
      | cons b l' => rfl

theorem strip_cons_ws (c : Char) (hc : pyIsSpace c = true) (t : Str) :
    strip (c :: t) = strip t := by
  simp [strip, lstrip, List.dropWhile_cons, hc]

theorem rstrip_append_ws (c : Char) (hc : pyIsSpace c = true) (s : Str) :
    rstrip (s ++ [c]) = rstrip s := by
  simp [rstrip, List.dropWhile_cons, hc]

theorem strip_append_ws (c : Char) (hc : pyIsSpace c = true) (s : Str) :
    strip (s ++ [c]) = strip s := by
  by_cases he : lstrip s = []
  · have h1 : lstrip (s ++ [c]) = [] := by
      simp only [lstrip] at he ⊢
      rw [List.dropWhile_append]
      simp [he, hc]
    rw [strip, h1, strip, he]
  · have h1 : lstrip (s ++ [c]) = lstrip s ++ [c] := by
      simp only [lstrip] at he ⊢
      rw [List.dropWhile_append]
      simp [he]
    rw [strip, h1, rstrip_append_ws c hc, strip]

namespace TestCaseTransformer

theorem tagsOf_cons_ws (c : Char) (hc : pyIsSpace c = true) (s : Str) :
    tagsOf (c :: s) = tagsOf s := by
  obtain ⟨a, l, hsp⟩ := List.exists_cons_of_ne_nil (splitTags_ne_nil s)
  simp only [tagsOf, splitTags]
  rw [if_neg (ws_not_sep hc), hsp]
  simp [strip_cons_ws c hc]

theorem tagsOf_appendLast_ws (c : Char) (hc : pyIsSpace c = true) :
    ∀ l : List Str,
      ((appendLast l [c]).map strip).filter (fun t => !t.isEmpty) =
        (l.map strip).filter (fun t => !t.isEmpty) := by
  intro l
  induction l with
  | nil => simp [appendLast, strip, lstrip, List.dropWhile_cons, hc, rstrip]
  | cons t rest ih =>
    cases rest with
    | nil => simp [appendLast, strip_append_ws c hc]
    | cons u rest' =>
      show ((t :: appendLast (u :: rest') [c]).map strip).filter _ = _
      simp only [List.map_cons, List.filter_cons, ih]

theorem tagsOf_append_ws (c : Char) (hc : pyIsSpace c = true) (s : Str) :
    tagsOf (s ++ [c]) = tagsOf s := by
  simp only [tagsOf]
  rw [splitTags_append_nonsep c (ws_not_sep hc), tagsOf_appendLast_ws c hc]

theorem tagsOf_append_ws_all (t : Str) (ht : ∀ c ∈ t, pyIsSpace c = true) :
    ∀ s : Str, tagsOf (s ++ t) = tagsOf s := by
  induction t with
  | nil => simp
  | cons c t' ih =>
    intro s
    have h1 : s ++ c :: t' = (s ++ [c]) ++ t' := by simp
    rw [h1, ih (fun d hd => ht d (List.mem_cons_of_mem c hd)),
      tagsOf_append_ws c (ht c (List.mem_cons_self c t'))]

theorem tagsOf_rstrip (s : Str) : tagsOf (rstrip s) = tagsOf s := by
  have hdec : rstrip s ++ (s.reverse.takeWhile pyIsSpace).reverse = s := by
    rw [rstrip, ← List.reverse_append, List.takeWhile_append_dropWhile, List.reverse_reverse]
  conv_rhs => rw [← hdec]
  rw [tagsOf_append_ws_all]
  intro c hcm
  exact List.mem_takeWhile_imp (List.mem_reverse.mp hcm)

theorem tagsOf_lstrip (s : Str) : tagsOf (lstrip s) = tagsOf s := by
  induction s with
  | nil => rfl
  | cons c s' ih =>
    by_cases hc : pyIsSpace c = true
    · rw [show lstrip (c :: s') = lstrip s' by simp [lstrip, List.dropWhile_cons, hc],
        ih, tagsOf_cons_ws c hc]
    · have h1 : lstrip (c :: s') = c :: s' := by
        simp [lstrip, List.dropWhile_cons, hc]
      rw [h1]

theorem tagsOf_strip (s : Str) : tagsOf (strip s) = tagsOf s := by
  rw [strip, tagsOf_rstrip, tagsOf_lstrip]

end TestCaseTransformer

/-- C8: when the `Tags` field is non-blank, the payload's tags are obtained
by splitting the raw value on comma or semicolon, trimming each piece,
discarding empties, preserving duplicates and order, and wrapping each
piece as a `{name: tag}` object; in particular `"smoke, auth"` yields
exactly the pieces `smoke` then `auth`. -/
theorem c8_tags_split (pid : Int) (row : Row) (v : Str)
    (hv : rowGet row CsvKeys.kTags = some v) (hb : strip v ≠ []) :
    payloadLookup (TestCaseTransformer.transform pid row) ApiKeys.kTags =
      some (Value.vTags
        ((((splitTags v).map strip).filter (fun t => !t.isEmpty)).map Tag.mk)) ∧
    TestCaseTransformer.tagsOf "smoke, auth".toList
      = ["smoke".toList, "auth".toList] := by
  constructor
  · rw [TestCaseTransformer.transform_lookup_tags, hv]
    simp only [hb, if_neg]
    rw [TestCaseTransformer.tagsOf_strip]
    rfl
  · decide

/-- C8 witness: a single-column row carrying `"smoke, auth"`. -/
theorem c8_tags_split_witness :
    payloadLookup
        (TestCaseTransformer.transform 1 [(CsvKeys.kTags, "smoke, auth".toList)])
        ApiKeys.kTags =
      some (Value.vTags [⟨"smoke".toList⟩, ⟨"auth".toList⟩]) := by
  have h := (c8_tags_split 1 [(CsvKeys.kTags, "smoke, auth".toList)]
    ("smoke, auth".toList) (by decide) (by decide)).1
  rw [h]
  decide

theorem strip_eq_nil_iff (s : Str) : strip s = [] ↔ ∀ c ∈ s, pyIsSpace c = true := by
  constructor
  · intro h c hc
    have h3 : List.dropWhile pyIsSpace (lstrip s).reverse = [] := by
      rw [strip, rstrip] at h
      exact List.reverse_eq_nil_iff.mp h
    have h2 : ∀ d ∈ lstrip s, pyIsSpace d = true := by
      intro d hd
      exact List.dropWhile_eq_nil_iff.mp h3 d (List.mem_reverse.mpr hd)
    have hs := (List.takeWhile_append_dropWhile pyIsSpace s).symm
    rw [hs, List.mem_append] at hc
    rcases hc with hc | hc
    · exact List.mem_takeWhile_imp hc
    · exact h2 c hc
  · intro h
    have h1 : lstrip s = [] := List.dropWhile_eq_nil_iff.mpr h
    rw [strip, h1]
    rfl

theorem splitSteps_single (seg : Str) (h : ∀ c ∈ seg, c ≠ '\n' ∧ c ≠ '|') :
    splitSteps seg = [seg] := by
  induction seg with
  | nil => exact splitSteps.eq_1
  | cons c cs ih =>
    have hc := h c (List.mem_cons_self c cs)
    have hsep : ∀ (t : List Char), c = ' ' → cs = '|' :: ' ' :: t → False := by
      intro t _ hrest
      have hm : '|' ∈ cs := by rw [hrest]; exact List.mem_cons_self _ _
      exact (h '|' (List.mem_cons_of_mem c hm)).2 rfl
    rw [splitSteps.eq_4 c cs hsep hc.1,
      ih (fun d hd => h d (List.mem_cons_of_mem c hd))]

theorem splitSteps_append_sep (t : Str) :
    ∀ seg : Str, (∀ c ∈ seg, c ≠ '\n' ∧ c ≠ '|') →
      splitSteps (seg ++ (SrcConfig.STEP_SEPARATOR ++ t)) = seg :: splitSteps t := by
  intro seg
  induction seg with
  | nil =>
    intro _
    show splitSteps (' ' :: '|' :: ' ' :: t) = [] :: splitSteps t
    exact splitSteps.eq_2 t
  | cons c cs ih =>
    intro h
    have hc := h c (List.mem_cons_self c cs)
    have hsep : ∀ (u : List Char), c = ' ' →
        cs ++ (SrcConfig.STEP_SEPARATOR ++ t) = '|' :: ' ' :: u → False := by
      intro u _ hrest
      cases cs with
      | nil => simp [SrcConfig.STEP_SEPARATOR] at hrest
      | cons d cs' =>
        rw [List.cons_append] at hrest
        injection hrest with h1 _
        exact (h d (List.mem_cons_of_mem c (List.mem_cons_self d cs'))).2 h1
    rw [List.cons_append, splitSteps.eq_4 _ _ hsep hc.1,
      ih (fun d hd => h d (List.mem_cons_of_mem c hd))]

theorem splitSteps_joinSegs :
    ∀ segs : List Str, (∀ seg ∈ segs, ∀ c ∈ seg, c ≠ '\n' ∧ c ≠ '|') →
      segs ≠ [] → splitSteps (TestCaseTransformer.joinSegs segs) = segs := by
  intro segs
  induction segs with
  | nil => intro _ h; exact absurd rfl h
  | cons s rest ih =>
    intro hall _
    cases rest with
    | nil =>
      show splitSteps s = [s]
      exact splitSteps_single s (hall s (List.mem_cons_self s []))
    | cons s2 rest' =>
      show splitSteps
        (s ++ (SrcConfig.STEP_SEPARATOR ++ TestCaseTransformer.joinSegs (s2 :: rest'))) =
          s :: s2 :: rest'
      rw [splitSteps_append_sep _ s (hall s (List.mem_cons_self s _)),
        ih (fun seg hseg => hall seg (List.mem_cons_of_mem s hseg)) (by simp)]

theorem splitSteps_mem_subset :
    ∀ (s : Str) (seg : Str), seg ∈ splitSteps s → ∀ c ∈ seg, c ∈ s := by
  intro s
  induction s using splitSteps.induct with
  | case1 =>
    intro seg hseg c hc
    simp only [splitSteps.eq_1, List.mem_singleton] at hseg
    subst hseg
    cases hc
  | case2 t ih =>
    intro seg hseg c hc
    rw [splitSteps.eq_2, List.mem_cons] at hseg
    rcases hseg with rfl | hseg
    · cases hc
    · have := ih seg hseg c hc
      simp [this]
  | case3 rest ih =>
    intro seg hseg c hc
    rw [splitSteps.eq_3, List.mem_cons] at hseg
    rcases hseg with rfl | hseg
    · cases hc
    · have := ih seg hseg c hc
      simp [this]
  | case4 c0 rest h1 h2 hnil ih =>
    intro seg hseg c hc
    rw [splitSteps.eq_4 c0 rest h1 h2, hnil] at hseg
    simp only [List.mem_singleton] at hseg
    subst hseg
    simp only [List.mem_singleton] at hc
    simp [hc]
  | case5 c0 rest h1 h2 s1 ss hsp ih =>
    intro seg hseg c hc
    rw [splitSteps.eq_4 c0 rest h1 h2, hsp] at hseg
    rw [List.mem_cons] at hseg
    rcases hseg with rfl | hseg
    · rcases List.mem_cons.mp hc with rfl | hc2
      · exact List.mem_cons_self _ _
      · have := ih s1 (by rw [hsp]; exact List.mem_cons_self _ _) c hc2
        exact List.mem_cons_of_mem c0 this
    · have := ih seg (by rw [hsp]; exact List.mem_cons_of_mem s1 hseg) c hc
      exact List.mem_cons_of_mem c0 this

theorem splitSteps_all_ws (s : Str) (h : ∀ c ∈ s, pyIsSpace c = true) :
    ((splitSteps s).map strip).filter (fun r => !r.isEmpty) = [] := by
  rw [List.filter_eq_nil_iff]
  intro r hr
  rw [List.mem_map] at hr
  obtain ⟨seg, hseg, rfl⟩ := hr
  have hws : ∀ c ∈ seg, pyIsSpace c = true :=
    fun c hc => h c (splitSteps_mem_subset s seg hseg c hc)
  have h2 : strip seg = [] := (strip_eq_nil_iff seg).mpr hws
  simp [h2]

theorem stepsOf_eq (l : List Str) :
    TestCaseTransformer.stepsOf l =
      ((l.map strip).filter (fun r => !r.isEmpty)).map TestCaseTransformer.mkStep := by
  induction l with
  | nil => rfl
  | cons raw rest ih =>
    by_cases hb : strip raw = []
    · simp [TestCaseTransformer.stepsOf, hb, ih]
    · simp [TestCaseTransformer.stepsOf, hb, ih]

theorem stepsOf_all_nonblank :
    ∀ l : List Str, (∀ seg ∈ l, strip seg ≠ []) →
      TestCaseTransformer.stepsOf l =
        l.map (fun seg => TestCaseTransformer.mkStep (strip seg)) := by
  intro l
  induction l with
  | nil => intro _; rfl
  | cons seg rest ih =>
    intro h
    have h1 := h seg (List.mem_cons_self seg rest)
    simp [TestCaseTransformer.stepsOf, h1,
      ih (fun x hx => h x (List.mem_cons_of_mem seg hx))]

theorem parse_steps_eq (s : Str) :
    TestCaseTransformer.parse_steps s =
      (((splitSteps s).map strip).filter (fun r => !r.isEmpty)).map
        TestCaseTransformer.mkStep := by
  by_cases hb : strip s = []
  · rw [TestCaseTransformer.parse_steps, if_pos hb,
      splitSteps_all_ws s ((strip_eq_nil_iff s).mp hb)]
    rfl
  · rw [TestCaseTransformer.parse_steps, if_neg hb, stepsOf_eq]

theorem wfSeg_strip_ne_nil (seg : Str) (h : TestCaseTransformer.wfSeg seg) :
    strip seg ≠ [] := by
  intro h0
  have h1 := h.2
  rw [h0] at h1
  exact h1

/-- C3: `parse_steps` splits its input on the step separator and on raw
newlines, trims each segment, discards blank segments, and turns each kept
segment into a step object by splitting on the first occurrence of the
action/expected separator (trimming both halves), the whole trimmed segment
becoming the name otherwise; for any list of well-formed
`action; Expected: result` segments joined by the separator it returns
exactly one step per segment in order, each with non-empty name, and
empty or whitespace-only input yields the empty sequence. -/
theorem c3_parse_steps_spec :
    (∀ s, TestCaseTransformer.parse_steps s =
      (((splitSteps s).map strip).filter (fun r => !r.isEmpty)).map
        TestCaseTransformer.mkStep) ∧
    TestCaseTransformer.parse_steps [] = [] ∧
    TestCaseTransformer.parse_steps "   ".toList = [] ∧
    (∀ segs : List Str, (∀ seg ∈ segs, TestCaseTransformer.wfSeg seg) →
      TestCaseTransformer.parse_steps (TestCaseTransformer.joinSegs segs) =
        segs.map (fun seg => TestCaseTransformer.mkStep (strip seg)) ∧
      ∀ st ∈ segs.map (fun seg => TestCaseTransformer.mkStep (strip seg)),
        st.name ≠ []) := by
  refine ⟨parse_steps_eq, rfl, by decide, ?_⟩
  intro segs hwf
  constructor
  · cases segs with
    | nil => rfl
    | cons s rest =>
      have hwf' : ∀ seg ∈ s :: rest, ∀ c ∈ seg, c ≠ '\n' ∧ c ≠ '|' :=
        fun seg hseg => (hwf seg hseg).1
      have hne : strip (TestCaseTransformer.joinSegs (s :: rest)) ≠ [] := by
        intro h0
        have hall := (strip_eq_nil_iff _).mp h0
        have hs_sub : ∀ c ∈ s, c ∈ TestCaseTransformer.joinSegs (s :: rest) := by
          intro c hc
          cases rest with
          | nil => exact hc
          | cons s2 r' => exact List.mem_append_left _ hc
        have h1 : strip s = [] :=
          (strip_eq_nil_iff s).mpr (fun c hc => hall c (hs_sub c hc))
        exact wfSeg_strip_ne_nil s (hwf s (List.mem_cons_self s rest)) h1
      rw [TestCaseTransformer.parse_steps, if_neg hne,
        splitSteps_joinSegs (s :: rest) hwf' (by simp)]
      exact stepsOf_all_nonblank (s :: rest)
        (fun seg hseg => wfSeg_strip_ne_nil seg (hwf seg hseg))
  · intro st hst
    rw [List.mem_map] at hst
    obtain ⟨seg, hseg, rfl⟩ := hst
    have h2 := (hwf seg hseg).2
    cases hsp : splitFirst SrcConfig.ACTION_EXPECTED_SEPARATOR (strip seg) with
    | none => rw [hsp] at h2; exact h2.elim
    | some ae =>
      obtain ⟨a, e⟩ := ae
      rw [hsp] at h2
      simp only [TestCaseTransformer.mkStep, hsp]
      exact h2

/-- C3 witness: two well-formed segments joined by the separator parse to
exactly two steps, in order, with the expected names and results. -/
theorem c3_parse_steps_spec_witness :
    TestCaseTransformer.parse_steps
        (TestCaseTransformer.joinSegs
          ["Login; Expected: Success".toList, "Open app; Expected: Shown".toList]) =
      [⟨"Login".toList, "Success".toList⟩, ⟨"Open app".toList, "Shown".toList⟩] := by
  have h := (c3_parse_steps_spec.2.2.2
    ["Login; Expected: Success".toList, "Open app; Expected: Shown".toList]
    (by decide)).1
  rw [h]
  decide
